import Mathlib

/-!
Verification of the YTBot repository (src/video.py, src/mubert_bot.py,
src/make_playlist.py) against its natural-language specification.

The Python code is shallowly embedded: pure lookups become Lean functions,
clip objects become a record of their duration and the fade effects applied
to them, and the side-effecting functions become functions that return the
trace of file-system events they perform together with an `Except` result.
Durations (floating-point seconds in the source) are modelled as rationals.
-/

namespace YTBot

/-- File paths are modelled as plain strings. -/
abbrev FPath := String

/-- The Python exception kinds that the embedded functions can raise. -/
inductive VError where
  | valueError (msg : String)
  | fileExistsError (msg : String)
  | keyError (key : String)
  | ioError (path : String)
deriving Repr, DecidableEq

deriving instance DecidableEq for Except

/-- Observable file-system / library actions performed by the code. -/
inductive Event where
  | openImage (path : FPath)
  | openAudio (path : FPath)
  | openVideo (path : FPath)
  | write (path : FPath) (threads : Nat)
  | removeFile (path : FPath)
deriving Repr, DecidableEq

/-- A moviepy clip, abstracted to its duration (seconds, as a rational) and
the lists of fade-in and fade-out durations that were applied to it. -/
structure Clip where
  duration : ℚ
  fadeins : List ℚ
  fadeouts : List ℚ
deriving Repr, DecidableEq

/-- Byte-point lexicographic order on character lists: the order Python uses
to compare the strings underlying `Path` objects in `sorted(...)`. -/
def lexLe : List Char → List Char → Bool
  | [], _ => true
  | _ :: _, [] => false
  | a :: xs, b :: ys =>
    if a.toNat < b.toNat then true
    else if b.toNat < a.toNat then false
    else lexLe xs ys

/-- The ascending path order used by `sorted` in `get_files_from_directory`. -/
def strOrd (a b : String) : Prop := lexLe a.data b.data = true

instance : DecidableRel strOrd :=
  fun a b => inferInstanceAs (Decidable (lexLe a.data b.data = true))

/-- Suffix test on strings: models matching a file name against the glob
pattern `*{extension}`. -/
def strEndsWith (s post : String) : Bool := post.data.isSuffixOf s.data

/-- `RESOLUTIONS` dictionary of `video.py`: named resolutions to pixel sizes;
a missing key is a Python `KeyError`, hence `Option`. -/
def RESOLUTIONS (name : String) : Option (Nat × Nat) :=
  if name = "8K" then some (7680, 4320)
  else if name = "4K" then some (3840, 2160)
  else if name = "2K" then some (2560, 1440)
  else if name = "FullHD" then some (1920, 1080)
  else if name = "HD" then some (1280, 720)
  else if name = "SD" then some (854, 480)
  else none

/-- `get_files_from_directory`: glob the directory entries against
`*{extension}` and sort the matches in ascending path order. The directory
is modelled by the list of its entry names (in arbitrary on-disk order). -/
def get_files_from_directory (entries : List FPath) (extension : String) :
    List FPath :=
  List.insertionSort strOrd (entries.filter (fun name => strEndsWith name extension))

/-- `add_fadein_to_audio`: record an `audio_fadein` of the given duration. -/
def add_fadein_to_audio (audioclip : Clip) (fadein_duration : ℚ) : Clip :=
  { audioclip with fadeins := audioclip.fadeins ++ [fadein_duration] }

/-- `add_fadeout_to_audio`: record an `audio_fadeout` of the given duration. -/
def add_fadeout_to_audio (audioclip : Clip) (fadeout_duration : ℚ) : Clip :=
  { audioclip with fadeouts := audioclip.fadeouts ++ [fadeout_duration] }

/-- `add_fadein_to_video`: record a video `fadein` of the given duration. -/
def add_fadein_to_video (videoclip : Clip) (fadein_duration : ℚ) : Clip :=
  { videoclip with fadeins := videoclip.fadeins ++ [fadein_duration] }

/-- `add_fadeout_to_video`: record a video `fadeout` of the given duration. -/
def add_fadeout_to_video (videoclip : Clip) (fadeout_duration : ℚ) : Clip :=
  { videoclip with fadeouts := videoclip.fadeouts ++ [fadeout_duration] }

/-- `concatenate_videoclips`: a fresh clip whose duration is the sum of the
parts; no fades are inherited by the concatenation object itself. -/
def concatenate_videoclips (clips : List Clip) : Clip :=
  { duration := (clips.map Clip.duration).sum, fadeins := [], fadeouts := [] }

/-- `concatenate_audioclips`: as `concatenate_videoclips`, for audio. -/
def concatenate_audioclips (clips : List Clip) : Clip :=
  { duration := (clips.map Clip.duration).sum, fadeins := [], fadeouts := [] }

/-- Effect of one event on the set of files present on disk: a write leaves
an existing destination present (overwrite) or creates it, a remove deletes
it; opens change nothing. -/
def applyEvent (fs : List FPath) : Event → List FPath
  | .write p _ => if p ∈ fs then fs else fs ++ [p]
  | .removeFile p => fs.filter (fun q => q ≠ p)
  | _ => fs

/-- Fold a whole trace of events over the file system. -/
def applyEvents (fs : List FPath) (evs : List Event) : List FPath :=
  evs.foldl applyEvent fs

/-- The paths written (rendered) by a trace, in order. -/
def writtenPaths (evs : List Event) : List FPath :=
  evs.filterMap fun e => match e with | .write p _ => some p | _ => none

/-- The paths removed by a trace, in order. -/
def removedPaths (evs : List Event) : List FPath :=
  evs.filterMap fun e => match e with | .removeFile p => some p | _ => none

/-- The `threads=` values passed to `write_videofile` calls in a trace. -/
def threadsUsed (evs : List Event) : List Nat :=
  evs.filterMap fun e => match e with | .write _ t => some t | _ => none

/-- `add_effect_to_image`: looks up the resolution, opens the image and the
effect video, overlays them, and renders to `output_path` with `threads=8`.
There is no check of the output path. The file system `fs` is taken as an
argument only to show it is never consulted; colors are carried but unused. -/
def add_effect_to_image (fs : List FPath) (image_path effect_path output_path : FPath)
    (background_color effect_color : Option (List ℚ)) (resolution : String) :
    List Event × Except VError Unit :=
  match RESOLUTIONS resolution with
  | none => ([], .error (.keyError resolution))
  | some _ =>
    ([.openImage image_path, .openVideo effect_path, .write output_path 8], .ok ())

/-- `add_audio_to_video`: looks up the resolution, opens the base video and
the audio (`durOpt` gives the audio duration, `none` modelling an I/O
failure), loops both to `duration_min * 60` seconds, optionally applies an
audio fade-in, and renders to `output_path` with `threads=8`. No check of
the output path is performed. -/
def add_audio_to_video (durOpt : FPath → Option ℚ) (fs : List FPath)
    (video_path audio_path output_path : FPath) (resolution : String)
    (duration_min fadein_sec : ℚ) : List Event × Except VError Clip :=
  match RESOLUTIONS resolution with
  | none => ([], .error (.keyError resolution))
  | some _ =>
    let duration_sec := duration_min * 60
    match durOpt audio_path with
    | none => ([.openVideo video_path, .openAudio audio_path], .error (.ioError audio_path))
    | some _ =>
      let clip : Clip := { duration := duration_sec, fadeins := [], fadeouts := [] }
      let clip := if fadein_sec > 0 then add_fadein_to_audio clip fadein_sec else clip
      ([.openVideo video_path, .openAudio audio_path, .write output_path 8], .ok clip)

/-- `add_audio_to_image`: its first statement raises `FileExistsError` when
`output_path` is already on disk; otherwise it looks up the resolution,
opens the image and the audio, loops them to `duration_min * 60` seconds,
and renders to `output_path` with `threads=8`. -/
def add_audio_to_image (durOpt : FPath → Option ℚ) (fs : List FPath)
    (image_path audio_path output_path : FPath) (resolution : String)
    (duration_min : ℚ) : List Event × Except VError Clip :=
  if output_path ∈ fs then
    ([], .error (.fileExistsError ("Output file " ++ output_path ++ " already exists.")))
  else
    match RESOLUTIONS resolution with
    | none => ([], .error (.keyError resolution))
    | some _ =>
      let duration_sec := duration_min * 60
      match durOpt audio_path with
      | none => ([.openImage image_path, .openAudio audio_path], .error (.ioError audio_path))
      | some _ =>
        ([.openImage image_path, .openAudio audio_path, .write output_path 8],
         .ok { duration := duration_sec, fadeins := [], fadeouts := [] })

/-- The value returned by a playlist builder: the per-track video and audio
clips (with the fades applied to each) and the two concatenated final clips
(with the whole-playlist fades applied). -/
structure PlaylistResult where
  trackVideos : List Clip
  trackAudios : List Clip
  finalVideo : Clip
  finalAudio : Clip
deriving Repr, DecidableEq

/-- The `effect_kw` keyword dictionary of
`create_playlist_video_with_effect`; colors are normalized RGB triples. -/
structure EffectKw where
  effect_path : FPath
  background_color : List ℚ
  effect_color : List ℚ
deriving Repr, DecidableEq

/-- The error message of the length check shared by both playlist builders. -/
def lengthMismatchMsg : String :=
  "The number of images must match the number of music tracks."

/-- The `for i, (image_file, music_file) in enumerate(zip(...))` loop of
`create_playlist_video`: `n` is `len(image_files)`, `i` the running index.
Each iteration opens the track audio (duration from `durOpt`, `none` being
an I/O failure), looks up the resolution, opens the image, applies the
2-second video fade-in/fade-out and the guarded 2-second audio fades
(`i != 0` and `i != n`). -/
def playlistLoop (durOpt : FPath → Option ℚ) (resolution : String) (n : Nat) :
    Nat → List (FPath × FPath) → List Event × Except VError (List Clip × List Clip)
  | _, [] => ([], .ok ([], []))
  | i, (image_file, music_file) :: rest =>
    match durOpt music_file with
    | none => ([.openAudio music_file], .error (.ioError music_file))
    | some d =>
      match RESOLUTIONS resolution with
      | none => ([.openAudio music_file], .error (.keyError resolution))
      | some _ =>
        let image_clip : Clip := { duration := d, fadeins := [], fadeouts := [] }
        let image_clip := add_fadein_to_video image_clip 2
        let image_clip := add_fadeout_to_video image_clip 2
        let audio_clip : Clip := { duration := d, fadeins := [], fadeouts := [] }
        let audio_clip := if i ≠ 0 then add_fadein_to_audio audio_clip 2 else audio_clip
        let audio_clip := if i ≠ n then add_fadeout_to_audio audio_clip 2 else audio_clip
        match playlistLoop durOpt resolution n (i + 1) rest with
        | (evs, .error e) =>
          ([.openAudio music_file, .openImage image_file] ++ evs, .error e)
        | (evs, .ok (vids, auds)) =>
          ([.openAudio music_file, .openImage image_file] ++ evs,
           .ok (image_clip :: vids, audio_clip :: auds))

/-- `create_playlist_video`: checks the image/track counts first, runs the
per-track loop, concatenates, and applies the 3-second whole-playlist
fade-in and fade-out to the final video and audio. -/
def create_playlist_video (durOpt : FPath → Option ℚ)
    (image_files music_files : List FPath) (resolution : String) :
    List Event × Except VError PlaylistResult :=
  if image_files.length ≠ music_files.length then
    ([], .error (.valueError lengthMismatchMsg))
  else
    match playlistLoop durOpt resolution image_files.length 0
        (image_files.zip music_files) with
    | (evs, .error e) => (evs, .error e)
    | (evs, .ok (video_clips, audio_clips)) =>
      let final_video := concatenate_videoclips video_clips
      let final_audio := concatenate_audioclips audio_clips
      let final_video := add_fadein_to_video final_video 3
      let final_audio := add_fadein_to_audio final_audio 3
      let final_video := add_fadeout_to_video final_video 3
      let final_audio := add_fadeout_to_audio final_audio 3
      (evs, .ok { trackVideos := video_clips, trackAudios := audio_clips,
                  finalVideo := final_video, finalAudio := final_audio })

/-- The fresh temporary file name `tempfile.mktemp(suffix=".mp4")` returns
for the `i`-th image of step 1. -/
def tempName (i : Nat) : FPath := "tmpfile" ++ toString i ++ ".mp4"

/-- Step 1 of `create_playlist_video_with_effect`: for each image, look up
the resolution, open the image, optionally open the effect video and
overlay it, and render the result to a fresh temporary file with
`threads=8`; returns the list of temporary file names. -/
def effectStep1 (effect_kw : Option EffectKw) (resolution : String) :
    Nat → List FPath → List Event × Except VError (List FPath)
  | _, [] => ([], .ok [])
  | i, image_file :: rest =>
    match RESOLUTIONS resolution with
    | none => ([], .error (.keyError resolution))
    | some _ =>
      let evs := [Event.openImage image_file] ++
        (match effect_kw with
         | some kw => [Event.openVideo kw.effect_path]
         | none => []) ++
        [Event.write (tempName i) 8]
      match effectStep1 effect_kw resolution (i + 1) rest with
      | (evs2, .error e) => (evs ++ evs2, .error e)
      | (evs2, .ok temps) => (evs ++ evs2, .ok (tempName i :: temps))

/-- Step 2 of `create_playlist_video_with_effect`: for each temporary video
and track, open the audio and the temporary video, loop the video to the
audio duration, apply the 2-second video fades and the guarded 2-second
audio fades (`i != 0` and `i != n - 1`). -/
def effectStep2 (durOpt : FPath → Option ℚ) (n : Nat) :
    Nat → List (FPath × FPath) → List Event × Except VError (List Clip × List Clip)
  | _, [] => ([], .ok ([], []))
  | i, (temp_video_file, music_file) :: rest =>
    match durOpt music_file with
    | none => ([.openAudio music_file], .error (.ioError music_file))
    | some d =>
      let video_clip : Clip := { duration := d, fadeins := [], fadeouts := [] }
      let video_clip := add_fadein_to_video video_clip 2
      let video_clip := add_fadeout_to_video video_clip 2
      let audio_clip : Clip := { duration := d, fadeins := [], fadeouts := [] }
      let audio_clip := if i ≠ 0 then add_fadein_to_audio audio_clip 2 else audio_clip
      let audio_clip := if i ≠ n - 1 then add_fadeout_to_audio audio_clip 2 else audio_clip
      match effectStep2 durOpt n (i + 1) rest with
      | (evs, .error e) =>
        ([.openAudio music_file, .openVideo temp_video_file] ++ evs, .error e)
      | (evs, .ok (vids, auds)) =>
        ([.openAudio music_file, .openVideo temp_video_file] ++ evs,
         .ok (video_clip :: vids, audio_clip :: auds))

/-- `create_playlist_video_with_effect`: checks the image/track counts
first, renders each (possibly effect-overlaid) image to a temporary file
(step 1), builds the per-track clips from those files (step 2),
concatenates and applies the 3-second whole-playlist fades, and finally
removes every temporary file. The cleanup runs only on this success path:
an exception anywhere earlier propagates without removing the files. -/
def create_playlist_video_with_effect (durOpt : FPath → Option ℚ)
    (image_files music_files : List FPath) (resolution : String)
    (effect_kw : Option EffectKw) : List Event × Except VError PlaylistResult :=
  if image_files.length ≠ music_files.length then
    ([], .error (.valueError lengthMismatchMsg))
  else
    match effectStep1 effect_kw resolution 0 image_files with
    | (evs1, .error e) => (evs1, .error e)
    | (evs1, .ok temp_video_files) =>
      match effectStep2 durOpt image_files.length 0
          (temp_video_files.zip music_files) with
      | (evs2, .error e) => (evs1 ++ evs2, .error e)
      | (evs2, .ok (video_clips, audio_clips)) =>
        let final_video := concatenate_videoclips video_clips
        let final_audio := concatenate_audioclips audio_clips
        let final_video := add_fadein_to_video final_video 3
        let final_audio := add_fadein_to_audio final_audio 3
        let final_video := add_fadeout_to_video final_video 3
        let final_audio := add_fadeout_to_audio final_audio 3
        (evs1 ++ evs2 ++ temp_video_files.map Event.removeFile,
         .ok { trackVideos := video_clips, trackAudios := audio_clips,
               finalVideo := final_video, finalAudio := final_audio })

/-- One fade application on a clip, as a pair of the fade duration and the
duration of the clip it is applied to. -/
def fadePairs (c : Clip) : List (ℚ × ℚ) :=
  (c.fadeins ++ c.fadeouts).map (fun d => (d, c.duration))

/-- Every fade application recorded in a playlist builder's result. -/
def allFadePairs (r : PlaylistResult) : List (ℚ × ℚ) :=
  (r.trackVideos.flatMap fadePairs) ++ (r.trackAudios.flatMap fadePairs) ++
    fadePairs r.finalVideo ++ fadePairs r.finalAudio

/-- The final playlist render of `make_playlist.py`: the script takes the
builder's output clip and calls `output.write_videofile("test.mp4",
threads=8)` directly, with no check of the output path. The file system
`fs` is taken as an argument only to show it is never consulted. -/
def render_playlist_output (fs : List FPath) (output : PlaylistResult)
    (output_path : FPath) : List Event × Except VError Unit :=
  ([.write output_path 8], .ok ())

/-- A JSON value as used in the request body of `mubert_bot.py`. -/
inductive JVal where
  | jstr (s : String)
  | jnum (q : ℚ)
deriving Repr, DecidableEq

/-- An HTTP POST request: target URL and the JSON object sent as its body. -/
structure HttpPost where
  url : String
  body : List (String × JVal)
deriving Repr, DecidableEq

/-- The fixed Mubert endpoint of `mubert_bot.py`. -/
def MUBERT_API_ENDPOINT : String := "https://mubert.com/api/v3/track/generate"

/-- `build_params` of `mubert_bot.py`: assembles the full parameter
dictionary. It is defined in the source but never called by
`generate_music`. -/
def build_params (apiKey genre mood : String) (intensity tempo duration : ℚ)
    (instrument audioFormat : String) (samplerate channels bitdepth : ℚ)
    (title artist album genreId moodId intensityId instrumentId audioFormatId
      samplerateId channelsId bitdepthId : String) : List (String × JVal) :=
  [("apiKey", .jstr apiKey), ("genre", .jstr genre), ("mood", .jstr mood),
   ("intensity", .jnum intensity), ("tempo", .jnum tempo),
   ("duration", .jnum duration), ("instrument", .jstr instrument),
   ("audioFormat", .jstr audioFormat), ("samplerate", .jnum samplerate),
   ("channels", .jnum channels), ("bitdepth", .jnum bitdepth),
   ("title", .jstr title), ("artist", .jstr artist), ("album", .jstr album),
   ("genreId", .jstr genreId), ("moodId", .jstr moodId),
   ("intensityId", .jstr intensityId), ("instrumentId", .jstr instrumentId),
   ("audioFormatId", .jstr audioFormatId), ("samplerateId", .jstr samplerateId),
   ("channelsId", .jstr channelsId), ("bitdepthId", .jstr bitdepthId)]

/-- `generate_music`: builds its own three-field parameter dictionary,
POSTs it (as JSON) to the fixed endpoint, and returns the raw response
content. The network is modelled by the oracle `respond`, mapping the
request to the response bytes. -/
def generate_music (genre mood : String) (respond : HttpPost → List Nat) :
    HttpPost × List Nat :=
  let params : List (String × JVal) :=
    [("apiKey", .jstr "your_api_key"), ("genre", .jstr genre), ("mood", .jstr mood)]
  let post : HttpPost := { url := MUBERT_API_ENDPOINT, body := params }
  (post, respond post)

/-- `save_audio_file`: opens the file in binary-write mode and writes the
audio bytes; the resulting file content is exactly the bytes passed in. -/
def save_audio_file (audio_data : List Nat) : List Nat := audio_data

/-- The field names present in a request body, in order. -/
def bodyKeys (p : HttpPost) : List String := p.body.map Prod.fst

/-- The value `create_playlist_video` returns for a single track whose
audio lasts `d` seconds: per-track video fades of 2, audio fade-out of 2
(the `i != len` guard is true even for the last track), final fades of 3. -/
def oneTrackResult (d : ℚ) : PlaylistResult :=
  { trackVideos := [{ duration := d, fadeins := [2], fadeouts := [2] }],
    trackAudios := [{ duration := d, fadeins := [], fadeouts := [2] }],
    finalVideo := { duration := d, fadeins := [3], fadeouts := [3] },
    finalAudio := { duration := d, fadeins := [3], fadeouts := [3] } }

/-- The value `create_playlist_video_with_effect` returns for a single
track of duration `d`: the `i != len - 1` guard is false for the only
track, so its audio receives no fade-out. -/
def oneTrackEffectResult (d : ℚ) : PlaylistResult :=
  { trackVideos := [{ duration := d, fadeins := [2], fadeouts := [2] }],
    trackAudios := [{ duration := d, fadeins := [], fadeouts := [] }],
    finalVideo := { duration := d, fadeins := [3], fadeouts := [3] },
    finalAudio := { duration := d, fadeins := [3], fadeouts := [3] } }

/-! ### Order theory for `lexLe` / `strOrd` -/

theorem lexLe_cons_iff (a b : Char) (xs ys : List Char) :
    lexLe (a :: xs) (b :: ys) = true ↔
      a.toNat < b.toNat ∨ (a.toNat = b.toNat ∧ lexLe xs ys = true) := by
  simp only [lexLe]
  by_cases h1 : a.toNat < b.toNat
  · simp [h1]
  · by_cases h2 : b.toNat < a.toNat
    · have hne : a.toNat ≠ b.toNat := by omega
      simp [h1, h2, hne]
    · have he : a.toNat = b.toNat := by omega
      simp [h1, h2, he]

theorem lexLe_total : ∀ l₁ l₂ : List Char, lexLe l₁ l₂ = true ∨ lexLe l₂ l₁ = true
  | [], _ => Or.inl rfl
  | _ :: _, [] => Or.inr rfl
  | a :: xs, b :: ys => by
    rcases Nat.lt_trichotomy a.toNat b.toNat with h | h | h
    · exact Or.inl ((lexLe_cons_iff a b xs ys).2 (Or.inl h))
    · rcases lexLe_total xs ys with h2 | h2
      · exact Or.inl ((lexLe_cons_iff a b xs ys).2 (Or.inr ⟨h, h2⟩))
      · exact Or.inr ((lexLe_cons_iff b a ys xs).2 (Or.inr ⟨h.symm, h2⟩))
    · exact Or.inr ((lexLe_cons_iff b a ys xs).2 (Or.inl h))

theorem lexLe_trans : ∀ l₁ l₂ l₃ : List Char,
    lexLe l₁ l₂ = true → lexLe l₂ l₃ = true → lexLe l₁ l₃ = true
  | [], _, _, _, _ => rfl
  | _ :: _, [], _, h₁, _ => by simp [lexLe] at h₁
  | _ :: _, _ :: _, [], _, h₂ => by simp [lexLe] at h₂
  | a :: xs, b :: ys, c :: zs, h₁, h₂ => by
    rcases (lexLe_cons_iff a b xs ys).1 h₁ with h | ⟨he, hr⟩ <;>
      rcases (lexLe_cons_iff b c ys zs).1 h₂ with h' | ⟨he', hr'⟩ <;>
      apply (lexLe_cons_iff a c xs zs).2
    · exact Or.inl (by omega)
    · exact Or.inl (by omega)
    · exact Or.inl (by omega)
    · exact Or.inr ⟨by omega, lexLe_trans xs ys zs hr hr'⟩

theorem lexLe_antisymm : ∀ l₁ l₂ : List Char,
    lexLe l₁ l₂ = true → lexLe l₂ l₁ = true → l₁ = l₂
  | [], [], _, _ => rfl
  | [], _ :: _, _, h₂ => by simp [lexLe] at h₂
  | _ :: _, [], h₁, _ => by simp [lexLe] at h₁
  | a :: xs, b :: ys, h₁, h₂ => by
    rcases (lexLe_cons_iff a b xs ys).1 h₁ with h | ⟨he, hr⟩ <;>
      rcases (lexLe_cons_iff b a ys xs).1 h₂ with h' | ⟨he', hr'⟩
    · omega
    · omega
    · omega
    · have hab : a = b := by
        apply Char.eq_of_val_eq
        apply UInt32.eq_of_toBitVec_eq
        exact BitVec.toNat_injective he
      rw [hab, lexLe_antisymm xs ys hr hr']

instance : IsTrans String strOrd :=
  ⟨fun a b c => lexLe_trans a.data b.data c.data⟩

instance : IsTotal String strOrd :=
  ⟨fun a b => lexLe_total a.data b.data⟩

instance : IsAntisymm String strOrd :=
  ⟨fun a b h₁ h₂ => by
    cases a; cases b
    exact congrArg String.mk (lexLe_antisymm _ _ h₁ h₂)⟩

/-! ### Claim theorems: resolution table and directory listing -/

/-- C5: the resolution-name lookup table maps each documented name to its
exact pixel dimensions, and lookup of any other name fails. -/
theorem resolutions_table_exact :
    RESOLUTIONS "8K" = some (7680, 4320) ∧ RESOLUTIONS "4K" = some (3840, 2160) ∧
    RESOLUTIONS "2K" = some (2560, 1440) ∧ RESOLUTIONS "FullHD" = some (1920, 1080) ∧
    RESOLUTIONS "HD" = some (1280, 720) ∧ RESOLUTIONS "SD" = some (854, 480) ∧
    ∀ name, name ∉ ["8K", "4K", "2K", "FullHD", "HD", "SD"] →
      RESOLUTIONS name = none := by
  refine ⟨by decide, by decide, by decide, by decide, by decide, by decide, ?_⟩
  intro name h
  simp only [List.mem_cons, List.not_mem_nil, or_false, not_or] at h
  obtain ⟨h1, h2, h3, h4, h5, h6⟩ := h
  simp [RESOLUTIONS, h1, h2, h3, h4, h5, h6]

/-- Witness for C5 at the concrete undocumented name "QHD". -/
theorem resolutions_table_exact_witness :
    RESOLUTIONS "QHD" = none ∧ RESOLUTIONS "FullHD" = some (1920, 1080) :=
  ⟨resolutions_table_exact.2.2.2.2.2.2 "QHD" (by decide),
   resolutions_table_exact.2.2.2.1⟩

/-- C9: every entry returned by `get_files_from_directory` ends with the
requested extension, the returned list is sorted in ascending path order,
and the result depends only on the set of directory entries, not on the
order the directory enumerates them in. -/
theorem get_files_filtered_sorted_deterministic (entries : List FPath)
    (extension : String) :
    (∀ x ∈ get_files_from_directory entries extension,
      strEndsWith x extension = true) ∧
    List.Sorted strOrd (get_files_from_directory entries extension) ∧
    ∀ entries2, entries2.Perm entries →
      get_files_from_directory entries2 extension =
        get_files_from_directory entries extension := by
  refine ⟨?_, List.sorted_insertionSort strOrd _, ?_⟩
  · intro x hx
    have hperm :=
      List.perm_insertionSort strOrd (entries.filter (fun n => strEndsWith n extension))
    exact (List.mem_filter.1 (hperm.subset hx)).2
  · intro entries2 hperm
    have h1 :=
      List.perm_insertionSort strOrd (entries2.filter (fun n => strEndsWith n extension))
    have h2 := hperm.filter (fun n => strEndsWith n extension)
    have h3 :=
      List.perm_insertionSort strOrd (entries.filter (fun n => strEndsWith n extension))
    exact List.eq_of_perm_of_sorted (h1.trans (h2.trans h3.symm))
      (List.sorted_insertionSort _ _) (List.sorted_insertionSort _ _)

/-- Witness for C9 on a concrete directory: ".jpg" filtering holds for a
returned entry, and a reordering of the directory gives the same listing. -/
theorem get_files_witness :
    strEndsWith "a.jpg" ".jpg" = true ∧
    get_files_from_directory ["a.jpg", "c.txt", "b.jpg"] ".jpg" =
      get_files_from_directory ["b.jpg", "a.jpg", "c.txt"] ".jpg" := by
  constructor
  · exact (get_files_filtered_sorted_deterministic ["b.jpg", "a.jpg", "c.txt"] ".jpg").1
      "a.jpg" (by decide)
  · exact (get_files_filtered_sorted_deterministic ["b.jpg", "a.jpg", "c.txt"] ".jpg").2.2
      ["a.jpg", "c.txt", "b.jpg"] (by decide)

/-! ### Claim theorems: destination checks (C2, C3) and the Mubert script (C6) -/

/-- C2 counterexample: `add_effect_to_image` does not fail when the
destination path already exists on disk; it renders to the existing path
anyway (and `add_audio_to_video` behaves the same way). -/
theorem add_effect_to_image_overwrites :
    "out.mp4" ∈ ["out.mp4"] ∧
    (add_effect_to_image ["out.mp4"] "img.png" "fx.mp4" "out.mp4" none none
      "FullHD").2 = .ok () ∧
    Event.write "out.mp4" 8 ∈
      (add_effect_to_image ["out.mp4"] "img.png" "fx.mp4" "out.mp4" none none
        "FullHD").1 := by
  refine ⟨by decide, by decide, by decide⟩

/-- C2 amended: only `add_audio_to_image` guards the destination path,
failing with `FileExistsError` and performing no action when it exists;
`add_effect_to_image`, `add_audio_to_video` and the final playlist render
of `make_playlist.py` never consult the file system and render to the
output path unconditionally, overwriting an existing destination. -/
theorem only_add_audio_to_image_guards_destination
    (durOpt : FPath → Option ℚ) (fs : List FPath)
    (image_path effect_path video_path audio_path output_path : FPath)
    (background_color effect_color : Option (List ℚ))
    (resolution : String) (duration_min fadein_sec : ℚ) (r : Nat × Nat)
    (playlist : PlaylistResult)
    (hout : output_path ∈ fs) :
    add_audio_to_image durOpt fs image_path audio_path output_path resolution
        duration_min =
      ([], .error (.fileExistsError
        ("Output file " ++ output_path ++ " already exists."))) ∧
    (RESOLUTIONS resolution = some r →
      Event.write output_path 8 ∈
        (add_effect_to_image fs image_path effect_path output_path
          background_color effect_color resolution).1 ∧
      (add_effect_to_image fs image_path effect_path output_path
        background_color effect_color resolution).2 = .ok ()) ∧
    (RESOLUTIONS resolution = some r → ∀ d, durOpt audio_path = some d →
      Event.write output_path 8 ∈
        (add_audio_to_video durOpt fs video_path audio_path output_path
          resolution duration_min fadein_sec).1) ∧
    (Event.write output_path 8 ∈
        (render_playlist_output fs playlist output_path).1 ∧
      (render_playlist_output fs playlist output_path).2 = .ok ()) := by
  refine ⟨?_, ?_, ?_, ?_⟩
  · simp [add_audio_to_image, hout]
  · intro hres
    simp [add_effect_to_image, hres]
  · intro hres d hd
    simp [add_audio_to_video, hres, hd]
  · simp [render_playlist_output]

/-- Witness for the amended C2 at concrete paths: the guarded function
fails on an existing destination while `add_effect_to_image` and the final
playlist render write to it. -/
theorem only_add_audio_to_image_guards_destination_witness :
    add_audio_to_image (fun _ => some 1) ["o.mp4"] "i.png" "m.wav" "o.mp4"
        "FullHD" 1 =
      ([], .error (.fileExistsError
        ("Output file " ++ "o.mp4" ++ " already exists."))) ∧
    Event.write "o.mp4" 8 ∈
      (add_effect_to_image ["o.mp4"] "i.png" "fx.mp4" "o.mp4" none none
        "FullHD").1 ∧
    Event.write "o.mp4" 8 ∈
      (render_playlist_output ["o.mp4"] (oneTrackResult 1) "o.mp4").1 := by
  have h := only_add_audio_to_image_guards_destination (fun _ => some 1)
    ["o.mp4"] "i.png" "fx.mp4" "v.mp4" "m.wav" "o.mp4" none none "FullHD" 1 4
    (1920, 1080) (oneTrackResult 1) (by decide)
  exact ⟨h.1, (h.2.1 (by decide)).1, h.2.2.2.1⟩

/-- C3: when the output path already exists, `add_audio_to_image` raises
`FileExistsError` as its first action: the event trace is empty (no clip is
opened, created or rendered) and the file system is left unchanged. -/
theorem add_audio_to_image_check_is_first_action (durOpt : FPath → Option ℚ)
    (fs : List FPath) (image_path audio_path output_path : FPath)
    (resolution : String) (duration_min : ℚ)
    (hout : output_path ∈ fs) :
    (add_audio_to_image durOpt fs image_path audio_path output_path resolution
      duration_min).1 = [] ∧
    (add_audio_to_image durOpt fs image_path audio_path output_path resolution
      duration_min).2 = .error (.fileExistsError
        ("Output file " ++ output_path ++ " already exists.")) ∧
    applyEvents fs (add_audio_to_image durOpt fs image_path audio_path
      output_path resolution duration_min).1 = fs := by
  refine ⟨?_, ?_, ?_⟩ <;> simp [add_audio_to_image, hout, applyEvents]

/-- Witness for C3 at concrete paths with the destination present. -/
theorem add_audio_to_image_check_is_first_action_witness :
    (add_audio_to_image (fun _ => some 1) ["o.mp4"] "i.png" "m.wav" "o.mp4"
      "FullHD" 1).1 = [] ∧
    applyEvents ["o.mp4"] (add_audio_to_image (fun _ => some 1) ["o.mp4"]
      "i.png" "m.wav" "o.mp4" "FullHD" 1).1 = ["o.mp4"] := by
  have h := add_audio_to_image_check_is_first_action (fun _ => some 1)
    ["o.mp4"] "i.png" "m.wav" "o.mp4" "FullHD" 1 (by decide)
  exact ⟨h.1, h.2.2⟩

/-- C6 counterexample: the JSON body `generate_music` posts contains only
`apiKey`, `genre` and `mood`; the documented fields such as `intensity`
are absent. -/
theorem generate_music_body_missing_fields :
    bodyKeys (generate_music "rock" "happy" (fun _ => [0, 255])).1 =
      ["apiKey", "genre", "mood"] ∧
    "intensity" ∉ bodyKeys (generate_music "rock" "happy" (fun _ => [0, 255])).1 := by
  refine ⟨rfl, by decide⟩

/-- C6 amended: `generate_music` posts to the fixed endpoint a JSON body
whose fields are exactly `apiKey`, `genre` and `mood` (the full field set of
the claim exists only in the unused helper `build_params`), and the raw
response bytes are written to the file unchanged. -/
theorem generate_music_post_and_save (genre mood : String)
    (respond : HttpPost → List Nat) :
    (generate_music genre mood respond).1.url = MUBERT_API_ENDPOINT ∧
    bodyKeys (generate_music genre mood respond).1 = ["apiKey", "genre", "mood"] ∧
    save_audio_file ((generate_music genre mood respond).2) =
      respond (generate_music genre mood respond).1 ∧
    ∀ apiKey g m intensity tempo duration instrument audioFormat samplerate
      channels bitdepth title artist album gI mI iI inI aFI sI cI bI,
      (build_params apiKey g m intensity tempo duration instrument audioFormat
        samplerate channels bitdepth title artist album gI mI iI inI aFI sI cI
        bI).map Prod.fst =
      ["apiKey", "genre", "mood", "intensity", "tempo", "duration",
       "instrument", "audioFormat", "samplerate", "channels", "bitdepth",
       "title", "artist", "album", "genreId", "moodId", "intensityId",
       "instrumentId", "audioFormatId", "samplerateId", "channelsId",
       "bitdepthId"] :=
  ⟨rfl, rfl, rfl, fun _ _ _ _ _ _ _ _ _ _ _ _ _ _ _ _ _ _ _ _ _ _ => rfl⟩

/-! ### Structural lemmas about the playlist loops -/

theorem mem_of_getLast?_eq {α : Type} {l : List α} {a : α}
    (h : l.getLast? = some a) : a ∈ l := by
  rcases List.mem_getLast?_eq_getLast (l := l) (x := a) (by rw [h]; rfl) with
    ⟨hne, heq⟩
  rw [heq]
  exact List.getLast_mem hne

theorem playlistLoop_no_valueError (durOpt : FPath → Option ℚ) (res : String)
    (n : Nat) :
    ∀ (l : List (FPath × FPath)) (i : Nat) (m : String),
      (playlistLoop durOpt res n i l).2 ≠ .error (.valueError m) := by
  intro l
  induction l with
  | nil => intro i m h; simp [playlistLoop] at h
  | cons p rest ih =>
    obtain ⟨img, mus⟩ := p
    intro i m h
    simp only [playlistLoop] at h
    cases hd : durOpt mus with
    | none => rw [hd] at h; simp at h
    | some d =>
      rw [hd] at h
      cases hres : RESOLUTIONS res with
      | none => rw [hres] at h; simp at h
      | some r =>
        rw [hres] at h
        cases hrec : playlistLoop durOpt res n (i + 1) rest with
        | mk evs2 out2 =>
          rw [hrec] at h
          cases out2 with
          | error e =>
            simp only at h
            apply ih (i + 1) m
            rw [hrec, h]
          | ok pr => obtain ⟨vids, auds⟩ := pr; simp at h

theorem effectStep1_no_valueError (effect_kw : Option EffectKw) (res : String) :
    ∀ (l : List FPath) (i : Nat) (m : String),
      (effectStep1 effect_kw res i l).2 ≠ .error (.valueError m) := by
  intro l
  induction l with
  | nil => intro i m h; simp [effectStep1] at h
  | cons img rest ih =>
    intro i m h
    simp only [effectStep1] at h
    cases hres : RESOLUTIONS res with
    | none => rw [hres] at h; simp at h
    | some r =>
      rw [hres] at h
      cases hrec : effectStep1 effect_kw res (i + 1) rest with
      | mk evs2 out2 =>
        rw [hrec] at h
        cases out2 with
        | error e =>
          simp only at h
          apply ih (i + 1) m
          rw [hrec, h]
        | ok temps => simp at h

theorem effectStep2_no_valueError (durOpt : FPath → Option ℚ) (n : Nat) :
    ∀ (l : List (FPath × FPath)) (i : Nat) (m : String),
      (effectStep2 durOpt n i l).2 ≠ .error (.valueError m) := by
  intro l
  induction l with
  | nil => intro i m h; simp [effectStep2] at h
  | cons p rest ih =>
    obtain ⟨tmp, mus⟩ := p
    intro i m h
    simp only [effectStep2] at h
    cases hd : durOpt mus with
    | none => rw [hd] at h; simp at h
    | some d =>
      rw [hd] at h
      cases hrec : effectStep2 durOpt n (i + 1) rest with
      | mk evs2 out2 =>
        rw [hrec] at h
        cases out2 with
        | error e =>
          simp only at h
          apply ih (i + 1) m
          rw [hrec, h]
        | ok pr => obtain ⟨vids, auds⟩ := pr; simp at h

/-- C1: when the image and music lists have different lengths, both
playlist builders raise `ValueError` with an empty event trace (before
opening or processing any file); when the lengths are equal, neither
function raises this error. -/
theorem playlist_builders_length_check (durOpt : FPath → Option ℚ)
    (image_files music_files : List FPath) (resolution : String)
    (effect_kw : Option EffectKw) :
    (image_files.length ≠ music_files.length →
      create_playlist_video durOpt image_files music_files resolution =
        ([], .error (.valueError lengthMismatchMsg)) ∧
      create_playlist_video_with_effect durOpt image_files music_files
          resolution effect_kw =
        ([], .error (.valueError lengthMismatchMsg))) ∧
    (image_files.length = music_files.length →
      (∀ m, (create_playlist_video durOpt image_files music_files
        resolution).2 ≠ .error (.valueError m)) ∧
      (∀ m, (create_playlist_video_with_effect durOpt image_files music_files
        resolution effect_kw).2 ≠ .error (.valueError m))) := by
  constructor
  · intro hne
    constructor
    · simp [create_playlist_video, hne]
    · simp [create_playlist_video_with_effect, hne]
  · intro heq
    constructor
    · intro m h
      simp only [create_playlist_video, if_neg (not_not_intro heq)] at h
      cases hloop : playlistLoop durOpt resolution image_files.length 0
          (image_files.zip music_files) with
      | mk evs out =>
        rw [hloop] at h
        cases out with
        | error e =>
          simp only [Except.error.injEq] at h
          apply playlistLoop_no_valueError durOpt resolution image_files.length
            (image_files.zip music_files) 0 m
          rw [hloop, h]
        | ok pr => obtain ⟨vids, auds⟩ := pr; simp at h
    · intro m h
      simp only [create_playlist_video_with_effect,
        if_neg (not_not_intro heq)] at h
      cases hstep1 : effectStep1 effect_kw resolution 0 image_files with
      | mk evs1 out1 =>
        rw [hstep1] at h
        cases out1 with
        | error e =>
          simp only [Except.error.injEq] at h
          apply effectStep1_no_valueError effect_kw resolution image_files 0 m
          rw [hstep1, h]
        | ok temps =>
          simp only at h
          cases hstep2 : effectStep2 durOpt image_files.length 0
              (temps.zip music_files) with
          | mk evs2 out2 =>
            rw [hstep2] at h
            cases out2 with
            | error e =>
              simp only [Except.error.injEq] at h
              apply effectStep2_no_valueError durOpt image_files.length
                (temps.zip music_files) 0 m
              rw [hstep2, h]
            | ok pr => obtain ⟨vids, auds⟩ := pr; simp at h

/-- Witness for C1: a mismatched pair of lists yields exactly the
`ValueError` with an empty trace, and a matched pair never yields it. -/
theorem playlist_builders_length_check_witness :
    create_playlist_video (fun _ => some 1) ["a.png"] [] "FullHD" =
      ([], .error (.valueError lengthMismatchMsg)) ∧
    (create_playlist_video (fun _ => some 1) ["a.png"] ["m.wav"] "FullHD").2 ≠
      .error (.valueError lengthMismatchMsg) := by
  constructor
  · exact (playlist_builders_length_check (fun _ => some 1) ["a.png"] []
      "FullHD" none).1 (by decide) |>.1
  · exact (playlist_builders_length_check (fun _ => some 1) ["a.png"] ["m.wav"]
      "FullHD" none).2 (by decide) |>.1 lengthMismatchMsg

theorem threadsUsed_append (a b : List Event) :
    threadsUsed (a ++ b) = threadsUsed a ++ threadsUsed b :=
  List.filterMap_append a b _

theorem writtenPaths_append (a b : List Event) :
    writtenPaths (a ++ b) = writtenPaths a ++ writtenPaths b :=
  List.filterMap_append a b _

theorem removedPaths_append (a b : List Event) :
    removedPaths (a ++ b) = removedPaths a ++ removedPaths b :=
  List.filterMap_append a b _

theorem threadsUsed_removeFiles (ps : List FPath) :
    threadsUsed (ps.map Event.removeFile) = [] := by
  induction ps with
  | nil => rfl
  | cons p rest _ => simp [threadsUsed]

theorem writtenPaths_removeFiles (ps : List FPath) :
    writtenPaths (ps.map Event.removeFile) = [] := by
  induction ps with
  | nil => rfl
  | cons p rest _ => simp [writtenPaths]

theorem removedPaths_removeFiles (ps : List FPath) :
    removedPaths (ps.map Event.removeFile) = ps := by
  induction ps with
  | nil => rfl
  | cons p rest ih => simpa [removedPaths] using ih

theorem threadsUsed_step1Head (img : FPath) (effect_kw : Option EffectKw)
    (i : Nat) :
    threadsUsed ([Event.openImage img] ++
      (match effect_kw with
       | some kw => [Event.openVideo kw.effect_path]
       | none => []) ++ [Event.write (tempName i) 8]) = [8] := by
  cases effect_kw <;> simp [threadsUsed]

theorem writtenPaths_step1Head (img : FPath) (effect_kw : Option EffectKw)
    (i : Nat) :
    writtenPaths ([Event.openImage img] ++
      (match effect_kw with
       | some kw => [Event.openVideo kw.effect_path]
       | none => []) ++ [Event.write (tempName i) 8]) = [tempName i] := by
  cases effect_kw <;> simp [writtenPaths]

theorem removedPaths_step1Head (img : FPath) (effect_kw : Option EffectKw)
    (i : Nat) :
    removedPaths ([Event.openImage img] ++
      (match effect_kw with
       | some kw => [Event.openVideo kw.effect_path]
       | none => []) ++ [Event.write (tempName i) 8]) = [] := by
  cases effect_kw <;> simp [removedPaths]

theorem effectStep1_threads (effect_kw : Option EffectKw) (res : String) :
    ∀ (l : List FPath) (i t : Nat),
      t ∈ threadsUsed (effectStep1 effect_kw res i l).1 → t = 8 := by
  intro l
  induction l with
  | nil => intro i t ht; simp [effectStep1, threadsUsed] at ht
  | cons img rest ih =>
    intro i t ht
    simp only [effectStep1] at ht
    cases hres : RESOLUTIONS res with
    | none => rw [hres] at ht; simp [threadsUsed] at ht
    | some r =>
      rw [hres] at ht
      cases hrec : effectStep1 effect_kw res (i + 1) rest with
      | mk evs2 out2 =>
        rw [hrec] at ht
        cases out2 with
        | error e =>
          simp only at ht
          rw [threadsUsed_append, threadsUsed_step1Head] at ht
          rcases List.mem_append.1 ht with h | h
          · simpa using h
          · exact ih (i + 1) t (by rw [hrec]; exact h)
        | ok temps2 =>
          simp only at ht
          rw [threadsUsed_append, threadsUsed_step1Head] at ht
          rcases List.mem_append.1 ht with h | h
          · simpa using h
          · exact ih (i + 1) t (by rw [hrec]; exact h)

theorem effectStep2_threads (durOpt : FPath → Option ℚ) (n : Nat) :
    ∀ (l : List (FPath × FPath)) (i : Nat),
      threadsUsed (effectStep2 durOpt n i l).1 = [] := by
  intro l
  induction l with
  | nil => intro i; simp [effectStep2, threadsUsed]
  | cons p rest ih =>
    obtain ⟨tmp, mus⟩ := p
    intro i
    simp only [effectStep2]
    cases hd : durOpt mus with
    | none => simp [threadsUsed]
    | some d =>
      cases hrec : effectStep2 durOpt n (i + 1) rest with
      | mk evs2 out2 =>
        have h2 : threadsUsed evs2 = [] := by
          have h3 := ih (i + 1)
          rw [hrec] at h3
          exact h3
        cases out2 with
        | error e =>
          simp only
          rw [threadsUsed_append, h2]
          simp [threadsUsed]
        | ok pr =>
          obtain ⟨vids, auds⟩ := pr
          simp only
          rw [threadsUsed_append, h2]
          simp [threadsUsed]

theorem effectStep2_written_removed (durOpt : FPath → Option ℚ) (n : Nat) :
    ∀ (l : List (FPath × FPath)) (i : Nat),
      writtenPaths (effectStep2 durOpt n i l).1 = [] ∧
      removedPaths (effectStep2 durOpt n i l).1 = [] := by
  intro l
  induction l with
  | nil => intro i; simp [effectStep2, writtenPaths, removedPaths]
  | cons p rest ih =>
    obtain ⟨tmp, mus⟩ := p
    intro i
    simp only [effectStep2]
    cases hd : durOpt mus with
    | none => simp [writtenPaths, removedPaths]
    | some d =>
      cases hrec : effectStep2 durOpt n (i + 1) rest with
      | mk evs2 out2 =>
        have h2 := ih (i + 1)
        rw [hrec] at h2
        cases out2 with
        | error e =>
          simp only
          constructor
          · rw [writtenPaths_append, h2.1]
            simp [writtenPaths]
          · rw [removedPaths_append, h2.2]
            simp [removedPaths]
        | ok pr =>
          obtain ⟨vids, auds⟩ := pr
          simp only
          constructor
          · rw [writtenPaths_append, h2.1]
            simp [writtenPaths]
          · rw [removedPaths_append, h2.2]
            simp [removedPaths]

theorem effectStep1_removed (effect_kw : Option EffectKw) (res : String) :
    ∀ (l : List FPath) (i : Nat),
      removedPaths (effectStep1 effect_kw res i l).1 = [] := by
  intro l
  induction l with
  | nil => intro i; simp [effectStep1, removedPaths]
  | cons img rest ih =>
    intro i
    simp only [effectStep1]
    cases hres : RESOLUTIONS res with
    | none => simp [removedPaths]
    | some r =>
      cases hrec : effectStep1 effect_kw res (i + 1) rest with
      | mk evs2 out2 =>
        have h2 : removedPaths evs2 = [] := by
          have h3 := ih (i + 1)
          rw [hrec] at h3
          exact h3
        cases out2 with
        | error e =>
          simp only
          rw [removedPaths_append, removedPaths_step1Head, h2]
          rfl
        | ok temps2 =>
          simp only
          rw [removedPaths_append, removedPaths_step1Head, h2]
          rfl

theorem effectStep1_written (effect_kw : Option EffectKw) (res : String) :
    ∀ (l : List FPath) (i : Nat) (evs : List Event) (temps : List FPath),
      effectStep1 effect_kw res i l = (evs, .ok temps) →
      writtenPaths evs = temps := by
  intro l
  induction l with
  | nil =>
    intro i evs temps h
    simp only [effectStep1, Prod.mk.injEq, Except.ok.injEq] at h
    obtain ⟨h1, h2⟩ := h
    rw [← h1, ← h2]
    rfl
  | cons img rest ih =>
    intro i evs temps h
    simp only [effectStep1] at h
    cases hres : RESOLUTIONS res with
    | none => rw [hres] at h; simp at h
    | some r =>
      rw [hres] at h
      cases hrec : effectStep1 effect_kw res (i + 1) rest with
      | mk evs2 out2 =>
        rw [hrec] at h
        cases out2 with
        | error e => simp at h
        | ok temps2 =>
          simp only [Prod.mk.injEq, Except.ok.injEq] at h
          obtain ⟨h1, h2⟩ := h
          rw [← h1, ← h2]
          rw [writtenPaths_append, writtenPaths_step1Head]
          rw [ih (i + 1) evs2 temps2 (by rw [hrec])]
          rfl

/-- C7: every `write_videofile` call issued by `add_effect_to_image`,
`add_audio_to_video`, `add_audio_to_image` and the per-image temporary
renders of `create_playlist_video_with_effect` passes the fixed constant
thread count 8 to the library. -/
theorem encode_thread_count_always_eight (durOpt : FPath → Option ℚ)
    (fs : List FPath)
    (image_path effect_path video_path audio_path output_path : FPath)
    (background_color effect_color : Option (List ℚ)) (resolution : String)
    (duration_min fadein_sec : ℚ) (image_files music_files : List FPath)
    (effect_kw : Option EffectKw) :
    (∀ t ∈ threadsUsed (add_effect_to_image fs image_path effect_path
      output_path background_color effect_color resolution).1, t = 8) ∧
    (∀ t ∈ threadsUsed (add_audio_to_video durOpt fs video_path audio_path
      output_path resolution duration_min fadein_sec).1, t = 8) ∧
    (∀ t ∈ threadsUsed (add_audio_to_image durOpt fs image_path audio_path
      output_path resolution duration_min).1, t = 8) ∧
    (∀ t ∈ threadsUsed (create_playlist_video_with_effect durOpt image_files
      music_files resolution effect_kw).1, t = 8) := by
  refine ⟨?_, ?_, ?_, ?_⟩
  · intro t ht
    simp only [add_effect_to_image] at ht
    cases hres : RESOLUTIONS resolution with
    | none => rw [hres] at ht; simp [threadsUsed] at ht
    | some r =>
      rw [hres] at ht
      simp [threadsUsed] at ht
      exact ht
  · intro t ht
    simp only [add_audio_to_video] at ht
    cases hres : RESOLUTIONS resolution with
    | none => rw [hres] at ht; simp [threadsUsed] at ht
    | some r =>
      rw [hres] at ht
      cases hd : durOpt audio_path with
      | none => rw [hd] at ht; simp [threadsUsed] at ht
      | some d =>
        rw [hd] at ht
        simp [threadsUsed] at ht
        exact ht
  · intro t ht
    by_cases hout : output_path ∈ fs
    · simp [add_audio_to_image, hout, threadsUsed] at ht
    · simp only [add_audio_to_image, if_neg hout] at ht
      cases hres : RESOLUTIONS resolution with
      | none => rw [hres] at ht; simp [threadsUsed] at ht
      | some r =>
        rw [hres] at ht
        cases hd : durOpt audio_path with
        | none => rw [hd] at ht; simp [threadsUsed] at ht
        | some d =>
          rw [hd] at ht
          simp [threadsUsed] at ht
          exact ht
  · intro t ht
    simp only [create_playlist_video_with_effect] at ht
    by_cases hlen : image_files.length ≠ music_files.length
    · rw [if_pos hlen] at ht; simp [threadsUsed] at ht
    · rw [if_neg hlen] at ht
      cases hstep1 : effectStep1 effect_kw resolution 0 image_files with
      | mk evs1 out1 =>
        rw [hstep1] at ht
        cases out1 with
        | error e =>
          simp only at ht
          exact effectStep1_threads effect_kw resolution image_files 0 t
            (by rw [hstep1]; exact ht)
        | ok temps =>
          simp only at ht
          cases hstep2 : effectStep2 durOpt image_files.length 0
              (temps.zip music_files) with
          | mk evs2 out2 =>
            rw [hstep2] at ht
            have h0 : threadsUsed evs2 = [] := by
              have h3 := effectStep2_threads durOpt image_files.length
                (temps.zip music_files) 0
              rw [hstep2] at h3
              exact h3
            cases out2 with
            | error e =>
              simp only at ht
              rw [threadsUsed_append, h0] at ht
              rcases List.mem_append.1 ht with h | h
              · exact effectStep1_threads effect_kw resolution image_files 0 t
                  (by rw [hstep1]; exact h)
              · simp at h
            | ok pr =>
              obtain ⟨vids, auds⟩ := pr
              simp only at ht
              rw [threadsUsed_append, threadsUsed_append, h0,
                threadsUsed_removeFiles] at ht
              rcases List.mem_append.1 ht with h | h
              · rcases List.mem_append.1 h with h2 | h2
                · exact effectStep1_threads effect_kw resolution image_files 0 t
                    (by rw [hstep1]; exact h2)
                · simp at h2
              · simp at h

/-- Witness for C7: a concrete render call writes with thread count 8. -/
theorem encode_thread_count_always_eight_witness :
    8 ∈ threadsUsed (add_effect_to_image [] "i.png" "fx.mp4" "o.mp4" none none
      "FullHD").1 ∧ (8 : Nat) = 8 := by
  have h := encode_thread_count_always_eight (fun _ => some 1) [] "i.png"
    "fx.mp4" "v.mp4" "m.wav" "o.mp4" none none "FullHD" 1 4 ["a.png"]
    ["m.wav"] none
  exact ⟨by decide, h.1 8 (by decide)⟩

/-- C10: when `create_playlist_video_with_effect` returns normally, the
paths it removed are exactly the temporary paths it wrote (no temporary
file survives a successful call); when it raises, no path is removed at
all, so the temporaries written so far are left behind. -/
theorem with_effect_cleanup_on_success_only (durOpt : FPath → Option ℚ)
    (image_files music_files : List FPath) (resolution : String)
    (effect_kw : Option EffectKw) :
    (∀ evs r, create_playlist_video_with_effect durOpt image_files music_files
        resolution effect_kw = (evs, .ok r) →
      removedPaths evs = writtenPaths evs) ∧
    (∀ evs e, create_playlist_video_with_effect durOpt image_files music_files
        resolution effect_kw = (evs, .error e) →
      removedPaths evs = []) := by
  constructor
  · intro evs r h
    simp only [create_playlist_video_with_effect] at h
    by_cases hlen : image_files.length ≠ music_files.length
    · rw [if_pos hlen] at h; simp at h
    · rw [if_neg hlen] at h
      cases hstep1 : effectStep1 effect_kw resolution 0 image_files with
      | mk evs1 out1 =>
        rw [hstep1] at h
        cases out1 with
        | error e => simp at h
        | ok temps =>
          simp only at h
          cases hstep2 : effectStep2 durOpt image_files.length 0
              (temps.zip music_files) with
          | mk evs2 out2 =>
            rw [hstep2] at h
            cases out2 with
            | error e => simp at h
            | ok pr =>
              obtain ⟨vids, auds⟩ := pr
              simp only [Prod.mk.injEq] at h
              obtain ⟨h1, -⟩ := h
              have hw1 : writtenPaths evs1 = temps :=
                effectStep1_written effect_kw resolution image_files 0 evs1
                  temps (by rw [hstep1])
              have hr1 : removedPaths evs1 = [] := by
                have h0 := effectStep1_removed effect_kw resolution image_files 0
                rw [hstep1] at h0
                exact h0
              have h2 := effectStep2_written_removed durOpt image_files.length
                (temps.zip music_files) 0
              rw [hstep2] at h2
              rw [← h1, removedPaths_append, removedPaths_append,
                writtenPaths_append, writtenPaths_append, hw1, hr1, h2.1, h2.2,
                removedPaths_removeFiles, writtenPaths_removeFiles]
              simp
  · intro evs e h
    simp only [create_playlist_video_with_effect] at h
    by_cases hlen : image_files.length ≠ music_files.length
    · rw [if_pos hlen] at h
      simp only [Prod.mk.injEq] at h
      obtain ⟨h1, -⟩ := h
      rw [← h1]
      rfl
    · rw [if_neg hlen] at h
      cases hstep1 : effectStep1 effect_kw resolution 0 image_files with
      | mk evs1 out1 =>
        rw [hstep1] at h
        cases out1 with
        | error e2 =>
          simp only [Prod.mk.injEq] at h
          obtain ⟨h1, -⟩ := h
          have h0 := effectStep1_removed effect_kw resolution image_files 0
          rw [hstep1] at h0
          rw [← h1]
          exact h0
        | ok temps =>
          simp only at h
          cases hstep2 : effectStep2 durOpt image_files.length 0
              (temps.zip music_files) with
          | mk evs2 out2 =>
            rw [hstep2] at h
            cases out2 with
            | ok pr => obtain ⟨vids, auds⟩ := pr; simp at h
            | error e2 =>
              simp only [Prod.mk.injEq] at h
              obtain ⟨h1, -⟩ := h
              have hr1 : removedPaths evs1 = [] := by
                have h0 := effectStep1_removed effect_kw resolution image_files 0
                rw [hstep1] at h0
                exact h0
              have h2 := effectStep2_written_removed durOpt image_files.length
                (temps.zip music_files) 0
              rw [hstep2] at h2
              rw [← h1, removedPaths_append, hr1, h2.2]
              rfl

/-- Witness for C10: a failing call (unreadable audio) removes nothing,
leaving the temporary file it had written. -/
theorem with_effect_cleanup_witness :
    removedPaths [Event.openImage "a.png", Event.write (tempName 0) 8,
      Event.openAudio "m.wav"] = [] ∧
    tempName 0 ∈ writtenPaths [Event.openImage "a.png",
      Event.write (tempName 0) 8, Event.openAudio "m.wav"] := by
  constructor
  · exact (with_effect_cleanup_on_success_only (fun _ => none) ["a.png"]
      ["m.wav"] "FullHD" none).2
      [Event.openImage "a.png", Event.write (tempName 0) 8,
        Event.openAudio "m.wav"] (.ioError "m.wav") (by decide)
  · simp [writtenPaths]

theorem create_playlist_video_one_track (d : ℚ) :
    create_playlist_video (fun _ => some d) ["a.png"] ["m.wav"] "FullHD" =
      ([Event.openAudio "m.wav", Event.openImage "a.png"],
       .ok (oneTrackResult d)) := by
  simp [create_playlist_video, playlistLoop, RESOLUTIONS, oneTrackResult,
    concatenate_videoclips, concatenate_audioclips, add_fadein_to_video,
    add_fadeout_to_video, add_fadein_to_audio, add_fadeout_to_audio]

theorem with_effect_one_track (d : ℚ) :
    create_playlist_video_with_effect (fun _ => some d) ["a.png"] ["m.wav"]
        "FullHD" none =
      ([Event.openImage "a.png", Event.write (tempName 0) 8,
        Event.openAudio "m.wav", Event.openVideo (tempName 0),
        Event.removeFile (tempName 0)],
       .ok (oneTrackEffectResult d)) := by
  simp [create_playlist_video_with_effect, effectStep1, effectStep2,
    RESOLUTIONS, oneTrackEffectResult, concatenate_videoclips,
    concatenate_audioclips, add_fadein_to_video, add_fadeout_to_video,
    add_fadein_to_audio, add_fadeout_to_audio]

theorem playlistLoop_ok_spec (durOpt : FPath → Option ℚ) (res : String)
    (n : Nat) :
    ∀ (l : List (FPath × FPath)) (i : Nat) (evs : List Event)
      (vids auds : List Clip),
      playlistLoop durOpt res n i l = (evs, .ok (vids, auds)) →
      vids.length = l.length ∧ auds.length = l.length ∧
      (∀ c ∈ vids, c.fadeins = [2] ∧ c.fadeouts = [2]) ∧
      (∀ c ∈ auds, (c.fadeins = [] ∨ c.fadeins = [2]) ∧
        (c.fadeouts = [] ∨ c.fadeouts = [2])) ∧
      (i + l.length ≤ n → ∀ c ∈ auds, c.fadeouts = [2]) := by
  intro l
  induction l with
  | nil =>
    intro i evs vids auds h
    simp only [playlistLoop, Prod.mk.injEq, Except.ok.injEq] at h
    obtain ⟨-, hv, ha⟩ := h
    subst hv
    subst ha
    refine ⟨rfl, rfl, by simp, by simp, by simp⟩
  | cons p rest ih =>
    obtain ⟨img, mus⟩ := p
    intro i evs vids auds h
    simp only [playlistLoop] at h
    cases hd : durOpt mus with
    | none => rw [hd] at h; simp at h
    | some d =>
      rw [hd] at h
      cases hres : RESOLUTIONS res with
      | none => rw [hres] at h; simp at h
      | some r =>
        rw [hres] at h
        cases hrec : playlistLoop durOpt res n (i + 1) rest with
        | mk evs2 out2 =>
          rw [hrec] at h
          cases out2 with
          | error e => simp at h
          | ok pr =>
            obtain ⟨vids2, auds2⟩ := pr
            simp only [Prod.mk.injEq, Except.ok.injEq] at h
            obtain ⟨-, hv, ha⟩ := h
            obtain ⟨ihl1, ihl2, ihv, iha, ihlast⟩ :=
              ih (i + 1) evs2 vids2 auds2 (by rw [hrec])
            subst hv
            subst ha
            refine ⟨by simp [ihl1], by simp [ihl2], ?_, ?_, ?_⟩
            · intro c hc
              rcases List.mem_cons.1 hc with rfl | hc2
              · simp [add_fadein_to_video, add_fadeout_to_video]
              · exact ihv c hc2
            · intro c hc
              rcases List.mem_cons.1 hc with rfl | hc2
              · by_cases hi : i ≠ 0 <;> by_cases hn : i ≠ n <;>
                  simp [hi, hn, add_fadein_to_audio, add_fadeout_to_audio]
              · exact iha c hc2
            · intro hle c hc
              rcases List.mem_cons.1 hc with rfl | hc2
              · have hn : i ≠ n := by simp at hle; omega
                by_cases hi : i ≠ 0 <;>
                  simp [hi, hn, add_fadein_to_audio, add_fadeout_to_audio]
              · exact ihlast (by simp at hle; omega) c hc2

theorem effectStep1_ok_length (effect_kw : Option EffectKw) (res : String) :
    ∀ (l : List FPath) (i : Nat) (evs : List Event) (temps : List FPath),
      effectStep1 effect_kw res i l = (evs, .ok temps) →
      temps.length = l.length := by
  intro l
  induction l with
  | nil =>
    intro i evs temps h
    simp only [effectStep1, Prod.mk.injEq, Except.ok.injEq] at h
    rw [← h.2]
  | cons img rest ih =>
    intro i evs temps h
    simp only [effectStep1] at h
    cases hres : RESOLUTIONS res with
    | none => rw [hres] at h; simp at h
    | some r =>
      rw [hres] at h
      cases hrec : effectStep1 effect_kw res (i + 1) rest with
      | mk evs2 out2 =>
        rw [hrec] at h
        cases out2 with
        | error e => simp at h
        | ok temps2 =>
          simp only [Prod.mk.injEq, Except.ok.injEq] at h
          rw [← h.2]
          simp [ih (i + 1) evs2 temps2 (by rw [hrec])]

theorem effectStep2_ok_spec (durOpt : FPath → Option ℚ) (n : Nat) :
    ∀ (l : List (FPath × FPath)) (i : Nat) (evs : List Event)
      (vids auds : List Clip),
      effectStep2 durOpt n i l = (evs, .ok (vids, auds)) →
      vids.length = l.length ∧ auds.length = l.length ∧
      (∀ c ∈ vids, c.fadeins = [2] ∧ c.fadeouts = [2]) ∧
      (∀ c ∈ auds, (c.fadeins = [] ∨ c.fadeins = [2]) ∧
        (c.fadeouts = [] ∨ c.fadeouts = [2])) ∧
      (i + l.length = n → ∀ c, auds.getLast? = some c → c.fadeouts = []) := by
  intro l
  induction l with
  | nil =>
    intro i evs vids auds h
    simp only [effectStep2, Prod.mk.injEq, Except.ok.injEq] at h
    obtain ⟨-, hv, ha⟩ := h
    subst hv
    subst ha
    refine ⟨rfl, rfl, by simp, by simp, by simp⟩
  | cons p rest ih =>
    obtain ⟨tmp, mus⟩ := p
    intro i evs vids auds h
    simp only [effectStep2] at h
    cases hd : durOpt mus with
    | none => rw [hd] at h; simp at h
    | some d =>
      rw [hd] at h
      cases hrec : effectStep2 durOpt n (i + 1) rest with
      | mk evs2 out2 =>
        rw [hrec] at h
        cases out2 with
        | error e => simp at h
        | ok pr =>
          obtain ⟨vids2, auds2⟩ := pr
          simp only [Prod.mk.injEq, Except.ok.injEq] at h
          obtain ⟨-, hv, ha⟩ := h
          obtain ⟨ihl1, ihl2, ihv, iha, ihlast⟩ :=
            ih (i + 1) evs2 vids2 auds2 (by rw [hrec])
          subst hv
          subst ha
          refine ⟨by simp [ihl1], by simp [ihl2], ?_, ?_, ?_⟩
          · intro c hc
            rcases List.mem_cons.1 hc with rfl | hc2
            · simp [add_fadein_to_video, add_fadeout_to_video]
            · exact ihv c hc2
          · intro c hc
            rcases List.mem_cons.1 hc with rfl | hc2
            · by_cases hi : i ≠ 0 <;> by_cases hn : i ≠ n - 1 <;>
                simp [hi, hn, add_fadein_to_audio, add_fadeout_to_audio]
            · exact iha c hc2
          · intro hlen c hc
            cases rest with
            | nil =>
              have ha2 : auds2 = [] := List.length_eq_zero.1 (by simp [ihl2])
              subst ha2
              simp only [List.getLast?_singleton, Option.some.injEq] at hc
              have hn : ¬ i ≠ n - 1 := by simp at hlen; omega
              rw [← hc]
              by_cases hi : i ≠ 0 <;>
                simp [hi, hn, add_fadein_to_audio, add_fadeout_to_audio]
            | cons q rest2 =>
              cases auds2 with
              | nil => simp at ihl2
              | cons a2 auds3 =>
                rw [List.getLast?_cons_cons] at hc
                exact ihlast (by simp at hlen ⊢; omega) c hc

/-- C8: in `create_playlist_video` the guard `i != len(image_files)` is
true for every loop index, so the 2-second audio fade-out is applied to
every track including the final one; `create_playlist_video_with_effect`
guards with `i != len(image_files) - 1` and therefore leaves the final
track without a fade-out, so on any non-empty input on which both succeed
the two per-track audio fade schedules differ. -/
theorem playlist_builders_fadeout_guard_difference (durOpt : FPath → Option ℚ)
    (image_files music_files : List FPath) (resolution : String)
    (effect_kw : Option EffectKw) (evs1 evs2 : List Event)
    (r1 r2 : PlaylistResult)
    (h1 : create_playlist_video durOpt image_files music_files resolution =
      (evs1, .ok r1))
    (h2 : create_playlist_video_with_effect durOpt image_files music_files
      resolution effect_kw = (evs2, .ok r2)) :
    (∀ c ∈ r1.trackAudios, c.fadeouts = [2]) ∧
    (image_files ≠ [] →
      (∃ c, r2.trackAudios.getLast? = some c ∧ c.fadeouts = []) ∧
      r1.trackAudios ≠ r2.trackAudios) := by
  by_cases hlen : image_files.length ≠ music_files.length
  · simp only [create_playlist_video, if_pos hlen] at h1
    simp at h1
  · have heq : image_files.length = music_files.length := not_not.1 hlen
    have hzip1 : (image_files.zip music_files).length = image_files.length := by
      rw [List.length_zip, ← heq, Nat.min_self]
    simp only [create_playlist_video, if_neg hlen] at h1
    cases hloop : playlistLoop durOpt resolution image_files.length 0
        (image_files.zip music_files) with
    | mk evsl outl =>
      rw [hloop] at h1
      cases outl with
      | error e => simp at h1
      | ok pr =>
        obtain ⟨vids, auds⟩ := pr
        simp only [Prod.mk.injEq, Except.ok.injEq] at h1
        obtain ⟨-, hr1⟩ := h1
        obtain ⟨-, hlau, -, -, hlast1⟩ := playlistLoop_ok_spec durOpt
          resolution image_files.length (image_files.zip music_files) 0 evsl
          vids auds (by rw [hloop])
        have hall : ∀ c ∈ auds, c.fadeouts = [2] :=
          hlast1 (by rw [hzip1]; omega)
        have hta1 : r1.trackAudios = auds := by rw [← hr1]
        simp only [create_playlist_video_with_effect, if_neg hlen] at h2
        cases hstep1 : effectStep1 effect_kw resolution 0 image_files with
        | mk evsa out1 =>
          rw [hstep1] at h2
          cases out1 with
          | error e => simp at h2
          | ok temps =>
            simp only at h2
            have htl : temps.length = image_files.length :=
              effectStep1_ok_length effect_kw resolution image_files 0 evsa
                temps (by rw [hstep1])
            have hzip2 : (temps.zip music_files).length = image_files.length := by
              rw [List.length_zip, htl, ← heq, Nat.min_self]
            cases hstep2 : effectStep2 durOpt image_files.length 0
                (temps.zip music_files) with
            | mk evsb out2 =>
              rw [hstep2] at h2
              cases out2 with
              | error e => simp at h2
              | ok pr2 =>
                obtain ⟨vids2, auds2⟩ := pr2
                simp only [Prod.mk.injEq, Except.ok.injEq] at h2
                obtain ⟨-, hr2⟩ := h2
                obtain ⟨-, hla2, -, -, hlast2⟩ := effectStep2_ok_spec durOpt
                  image_files.length (temps.zip music_files) 0 evsb vids2
                  auds2 (by rw [hstep2])
                have hta2 : r2.trackAudios = auds2 := by rw [← hr2]
                have hnofade : ∀ c, auds2.getLast? = some c →
                    c.fadeouts = [] :=
                  hlast2 (by simpa using hzip2)
                constructor
                · rw [hta1]
                  exact hall
                · intro hne
                  have hn1 : 0 < image_files.length := List.length_pos.2 hne
                  have hlen2 : auds2.length = image_files.length := by
                    rw [hla2, hzip2]
                  have hne2 : auds2 ≠ [] := by
                    intro hnil
                    rw [hnil] at hlen2
                    simp at hlen2
                    omega
                  have hgl := List.getLast?_eq_getLast_of_ne_nil hne2
                  refine ⟨⟨auds2.getLast hne2, by rw [hta2, hgl], ?_⟩, ?_⟩
                  · exact hnofade _ hgl
                  · rw [hta1, hta2]
                    intro hcontra
                    have hlenA : auds.length = image_files.length := by
                      rw [hlau, hzip1]
                    have hneA : auds ≠ [] := by
                      intro hnil
                      rw [hnil] at hlenA
                      simp at hlenA
                      omega
                    have hglA := List.getLast?_eq_getLast_of_ne_nil hneA
                    have hmemA : auds.getLast hneA ∈ auds :=
                      mem_of_getLast?_eq hglA
                    have h2out : (auds.getLast hneA).fadeouts = [] := by
                      apply hnofade
                      rw [← hcontra]
                      exact hglA
                    rw [hall _ hmemA] at h2out
                    simp at h2out

/-- Witness for C8 on a concrete one-track input: the plain builder fades
out the only track, the effect builder does not, and the schedules differ. -/
theorem playlist_builders_fadeout_guard_difference_witness :
    ({ duration := (5 : ℚ), fadeins := [], fadeouts := [2] } : Clip).fadeouts
      = [2] ∧
    (oneTrackResult 5).trackAudios ≠ (oneTrackEffectResult 5).trackAudios := by
  have h := playlist_builders_fadeout_guard_difference (fun _ => some 5)
    ["a.png"] ["m.wav"] "FullHD" none _ _ _ _
    (create_playlist_video_one_track 5) (with_effect_one_track 5)
  exact ⟨h.1 _ (by decide), (h.2 (by decide)).2⟩

theorem fadePairs_bound (c : Clip)
    (h : ∀ f ∈ c.fadeins ++ c.fadeouts, 0 ≤ f ∧ f ≤ c.duration) :
    ∀ p ∈ fadePairs c, 0 ≤ p.1 ∧ p.1 ≤ p.2 := by
  intro p hp
  simp only [fadePairs, List.mem_map] at hp
  obtain ⟨f, hf, hfp⟩ := hp
  rw [← hfp]
  exact h f hf

theorem fades_two_bound (c : Clip) (hd2 : 2 ≤ c.duration)
    (hin : c.fadeins = [] ∨ c.fadeins = [2])
    (hout : c.fadeouts = [] ∨ c.fadeouts = [2]) :
    ∀ p ∈ fadePairs c, 0 ≤ p.1 ∧ p.1 ≤ p.2 := by
  apply fadePairs_bound
  intro f hf
  have hf2 : f = 2 := by
    rcases hin with h1 | h1 <;> rcases hout with h2 | h2 <;>
      rw [h1, h2] at hf <;> simp at hf <;> exact hf
  subst hf2
  exact ⟨by norm_num, by linarith⟩

theorem fades_three_bound (c : Clip) (hd3 : 3 ≤ c.duration)
    (hin : c.fadeins = [3]) (hout : c.fadeouts = [3]) :
    ∀ p ∈ fadePairs c, 0 ≤ p.1 ∧ p.1 ≤ p.2 := by
  apply fadePairs_bound
  intro f hf
  rw [hin, hout] at hf
  have hf3 : f = 3 := by simpa using hf
  subst hf3
  exact ⟨by norm_num, by linarith⟩

theorem fadePairs_fst (c : Clip) (v : ℚ)
    (hin : c.fadeins = [] ∨ c.fadeins = [v])
    (hout : c.fadeouts = [] ∨ c.fadeouts = [v]) :
    ∀ p ∈ fadePairs c, p.1 = v := by
  intro p hp
  simp only [fadePairs, List.mem_map] at hp
  obtain ⟨f, hf, hfp⟩ := hp
  rw [← hfp]
  rcases hin with h1 | h1 <;> rcases hout with h2 | h2 <;>
    rw [h1, h2] at hf <;> simp at hf <;> exact hf

/-- C4 amended: every fade the playlist builders apply has one of the
constant durations 2 (per-track) or 3 (whole playlist), hence is
non-negative — unconditionally; the bound fade ≤ clip duration holds under
the additional assumptions that every per-track clip lasts at least 2
seconds and each concatenated final clip at least 3 seconds — the code
does not enforce these, and a 1-second track violates the original claim. -/
theorem playlist_fades_bounded_iff_long_tracks (durOpt : FPath → Option ℚ)
    (image_files music_files : List FPath) (resolution : String)
    (effect_kw : Option EffectKw) :
    (∀ evs r, create_playlist_video durOpt image_files music_files resolution
        = (evs, .ok r) →
      (∀ p ∈ allFadePairs r, (p.1 = 2 ∨ p.1 = 3) ∧ 0 ≤ p.1) ∧
      ((∀ c ∈ r.trackVideos, 2 ≤ c.duration) →
       (∀ c ∈ r.trackAudios, 2 ≤ c.duration) →
       3 ≤ r.finalVideo.duration → 3 ≤ r.finalAudio.duration →
       ∀ p ∈ allFadePairs r, 0 ≤ p.1 ∧ p.1 ≤ p.2)) ∧
    (∀ evs r, create_playlist_video_with_effect durOpt image_files
        music_files resolution effect_kw = (evs, .ok r) →
      (∀ p ∈ allFadePairs r, (p.1 = 2 ∨ p.1 = 3) ∧ 0 ≤ p.1) ∧
      ((∀ c ∈ r.trackVideos, 2 ≤ c.duration) →
       (∀ c ∈ r.trackAudios, 2 ≤ c.duration) →
       3 ≤ r.finalVideo.duration → 3 ≤ r.finalAudio.duration →
       ∀ p ∈ allFadePairs r, 0 ≤ p.1 ∧ p.1 ≤ p.2)) := by
  constructor
  · intro evs r h
    by_cases hlen : image_files.length ≠ music_files.length
    · simp only [create_playlist_video, if_pos hlen] at h
      simp at h
    · simp only [create_playlist_video, if_neg hlen] at h
      cases hloop : playlistLoop durOpt resolution image_files.length 0
          (image_files.zip music_files) with
      | mk evsl outl =>
        rw [hloop] at h
        cases outl with
        | error e => simp at h
        | ok pr =>
          obtain ⟨vids, auds⟩ := pr
          simp only [Prod.mk.injEq, Except.ok.injEq] at h
          obtain ⟨-, hr⟩ := h
          obtain ⟨-, -, hvf, haf, -⟩ := playlistLoop_ok_spec durOpt resolution
            image_files.length (image_files.zip music_files) 0 evsl vids auds
            (by rw [hloop])
          subst hr
          constructor
          · intro p hp
            simp only [allFadePairs, List.mem_append, List.mem_flatMap] at hp
            rcases hp with ((⟨c, hc, hpc⟩ | ⟨c, hc, hpc⟩) | hpc) | hpc
            · have h2 := fadePairs_fst c 2 (Or.inr (hvf c hc).1)
                (Or.inr (hvf c hc).2) p hpc
              exact ⟨Or.inl h2, by rw [h2]; norm_num⟩
            · have h2 := fadePairs_fst c 2 (haf c hc).1 (haf c hc).2 p hpc
              exact ⟨Or.inl h2, by rw [h2]; norm_num⟩
            · have h3 := fadePairs_fst _ 3
                (Or.inr (by simp [add_fadein_to_video, add_fadeout_to_video,
                  concatenate_videoclips]))
                (Or.inr (by simp [add_fadein_to_video, add_fadeout_to_video,
                  concatenate_videoclips])) p hpc
              exact ⟨Or.inr h3, by rw [h3]; norm_num⟩
            · have h3 := fadePairs_fst _ 3
                (Or.inr (by simp [add_fadein_to_audio, add_fadeout_to_audio,
                  concatenate_audioclips]))
                (Or.inr (by simp [add_fadein_to_audio, add_fadeout_to_audio,
                  concatenate_audioclips])) p hpc
              exact ⟨Or.inr h3, by rw [h3]; norm_num⟩
          · intro hv ha hfv hfa p hp
            simp only [allFadePairs, List.mem_append, List.mem_flatMap] at hp
            rcases hp with ((⟨c, hc, hpc⟩ | ⟨c, hc, hpc⟩) | hpc) | hpc
            · exact fades_two_bound c (hv c hc) (Or.inr (hvf c hc).1)
                (Or.inr (hvf c hc).2) p hpc
            · exact fades_two_bound c (ha c hc) (haf c hc).1 (haf c hc).2 p hpc
            · refine fades_three_bound _ hfv ?_ ?_ p hpc <;>
                simp [add_fadein_to_video, add_fadeout_to_video,
                  concatenate_videoclips]
            · refine fades_three_bound _ hfa ?_ ?_ p hpc <;>
                simp [add_fadein_to_audio, add_fadeout_to_audio,
                  concatenate_audioclips]
  · intro evs r h
    by_cases hlen : image_files.length ≠ music_files.length
    · simp only [create_playlist_video_with_effect, if_pos hlen] at h
      simp at h
    · simp only [create_playlist_video_with_effect, if_neg hlen] at h
      cases hstep1 : effectStep1 effect_kw resolution 0 image_files with
      | mk evsa out1 =>
        rw [hstep1] at h
        cases out1 with
        | error e => simp at h
        | ok temps =>
          simp only at h
          cases hstep2 : effectStep2 durOpt image_files.length 0
              (temps.zip music_files) with
          | mk evsb out2 =>
            rw [hstep2] at h
            cases out2 with
            | error e => simp at h
            | ok pr2 =>
              obtain ⟨vids2, auds2⟩ := pr2
              simp only [Prod.mk.injEq, Except.ok.injEq] at h
              obtain ⟨-, hr⟩ := h
              obtain ⟨-, -, hvf, haf, -⟩ := effectStep2_ok_spec durOpt
                image_files.length (temps.zip music_files) 0 evsb vids2 auds2
                (by rw [hstep2])
              subst hr
              constructor
              · intro p hp
                simp only [allFadePairs, List.mem_append,
                  List.mem_flatMap] at hp
                rcases hp with ((⟨c, hc, hpc⟩ | ⟨c, hc, hpc⟩) | hpc) | hpc
                · have h2 := fadePairs_fst c 2 (Or.inr (hvf c hc).1)
                    (Or.inr (hvf c hc).2) p hpc
                  exact ⟨Or.inl h2, by rw [h2]; norm_num⟩
                · have h2 := fadePairs_fst c 2 (haf c hc).1 (haf c hc).2 p hpc
                  exact ⟨Or.inl h2, by rw [h2]; norm_num⟩
                · have h3 := fadePairs_fst _ 3
                    (Or.inr (by simp [add_fadein_to_video,
                      add_fadeout_to_video, concatenate_videoclips]))
                    (Or.inr (by simp [add_fadein_to_video,
                      add_fadeout_to_video, concatenate_videoclips])) p hpc
                  exact ⟨Or.inr h3, by rw [h3]; norm_num⟩
                · have h3 := fadePairs_fst _ 3
                    (Or.inr (by simp [add_fadein_to_audio,
                      add_fadeout_to_audio, concatenate_audioclips]))
                    (Or.inr (by simp [add_fadein_to_audio,
                      add_fadeout_to_audio, concatenate_audioclips])) p hpc
                  exact ⟨Or.inr h3, by rw [h3]; norm_num⟩
              · intro hv ha hfv hfa p hp
                simp only [allFadePairs, List.mem_append,
                  List.mem_flatMap] at hp
                rcases hp with ((⟨c, hc, hpc⟩ | ⟨c, hc, hpc⟩) | hpc) | hpc
                · exact fades_two_bound c (hv c hc) (Or.inr (hvf c hc).1)
                    (Or.inr (hvf c hc).2) p hpc
                · exact fades_two_bound c (ha c hc) (haf c hc).1 (haf c hc).2
                    p hpc
                · refine fades_three_bound _ hfv ?_ ?_ p hpc <;>
                    simp [add_fadein_to_video, add_fadeout_to_video,
                      concatenate_videoclips]
                · refine fades_three_bound _ hfa ?_ ?_ p hpc <;>
                    simp [add_fadein_to_audio, add_fadeout_to_audio,
                      concatenate_audioclips]

/-- C4 counterexample: on a single 1-second track, `create_playlist_video`
applies a 2-second fade to a 1-second clip, so the fade duration exceeds
the clip duration. -/
theorem playlist_fade_exceeds_clip_duration :
    (create_playlist_video (fun _ => some 1) ["a.png"] ["m.wav"] "FullHD").2
      = .ok (oneTrackResult 1) ∧
    ((2 : ℚ), (1 : ℚ)) ∈ allFadePairs (oneTrackResult 1) ∧
    ¬ ((2 : ℚ) ≤ (1 : ℚ)) := by
  refine ⟨by rw [create_playlist_video_one_track 1], ?_, by norm_num⟩
  simp [allFadePairs, fadePairs, oneTrackResult]

/-- Witness for amended C4: on a 4-second track a fade application is the
constant 2, non-negative, and within the clip duration. -/
theorem playlist_fades_bounded_witness :
    ((2 : ℚ), (4 : ℚ)) ∈ allFadePairs (oneTrackResult 4) ∧
    ((2 : ℚ) = 2 ∨ (2 : ℚ) = 3) ∧
    (0 : ℚ) ≤ 2 ∧ (2 : ℚ) ≤ (4 : ℚ) := by
  have h := (playlist_fades_bounded_iff_long_tracks (fun _ => some 4)
    ["a.png"] ["m.wav"] "FullHD" none).1
    [Event.openAudio "m.wav", Event.openImage "a.png"] (oneTrackResult 4)
    (create_playlist_video_one_track 4)
  have hconst := h.1 ((2 : ℚ), (4 : ℚ)) (by decide)
  have hbound := h.2 (by decide) (by decide) (by decide) (by decide)
    ((2 : ℚ), (4 : ℚ)) (by decide)
  exact ⟨by decide, hconst.1, hbound.1, hbound.2⟩

end YTBot
